import Mathlib

/-!
A shallow embedding of the dispatch-optimizer core of the vpp repository:
the `Battery` stepping model (`src/backend/src/storage/battery.py`), the
LP model built by `optimize` (`src/backend/src/optimization/optimization.py`),
the result-extraction and SOC write-back phase, and the index-alignment step
of `load_optimization_data`.  All numerics are modelled over `ℚ`; Python
divisions that can raise `ZeroDivisionError` are modelled with `Except`.
-/

/-- Battery entity, mirroring `Battery.__init__` field for field
(`src/backend/src/storage/battery.py`, lines 7-36). -/
structure Battery where
  battery_id : String
  capacity_kWh : ℚ
  current_soc_kWh : ℚ
  max_charge_kW : ℚ
  max_discharge_kW : ℚ
  round_trip_efficiency : ℚ
deriving DecidableEq, Repr

/-- `Battery.__init__`: stores the parameters unchanged, then clamps the
initial SOC into range (`if soc < 0: soc = 0 elif soc > capacity: soc = capacity`).
No parameter validation is performed and nothing is raised. -/
def Battery.init (id : String) (capacity_kWh : ℚ) (current_soc_kWh : ℚ)
    (max_charge_kW : ℚ) (max_discharge_kW : ℚ) (round_trip_efficiency : ℚ) :
    Battery :=
  { battery_id := id
    capacity_kWh := capacity_kWh
    current_soc_kWh :=
      if current_soc_kWh < 0 then 0
      else if current_soc_kWh > capacity_kWh then capacity_kWh
      else current_soc_kWh
    max_charge_kW := max_charge_kW
    max_discharge_kW := max_discharge_kW
    round_trip_efficiency := round_trip_efficiency }

/-- `Battery.charge` (lines 38-66), arithmetic part: clamp the requested power
(`min` with the rate limit, then floor negative values at 0), compute
`energy_to_add = power * duration * eta`, cap by the remaining headroom,
add the capped energy to the SOC and return the achieved power
`(actual_energy / duration) / eta` together with the updated battery. -/
def Battery.charge (b : Battery) (power_kW : ℚ) (duration_h : ℚ) : ℚ × Battery :=
  let power₁ := min power_kW b.max_charge_kW
  let power₂ := if power₁ < 0 then 0 else power₁
  let energy_to_add_kWh := power₂ * duration_h * b.round_trip_efficiency
  let available_capacity_kWh := b.capacity_kWh - b.current_soc_kWh
  let actual_energy_added_kWh := min energy_to_add_kWh available_capacity_kWh
  let soc' := b.current_soc_kWh + actual_energy_added_kWh
  let actual_power_kW := actual_energy_added_kWh / duration_h / b.round_trip_efficiency
  (actual_power_kW, { b with current_soc_kWh := soc' })

/-- `Battery.discharge` (lines 68-99), arithmetic part: clamp the requested
power, compute `energy_requested = power * duration`, cap by `soc * eta`,
subtract `capped / eta` from the SOC and return `capped / duration`. -/
def Battery.discharge (b : Battery) (power_kW : ℚ) (duration_h : ℚ) : ℚ × Battery :=
  let power₁ := min power_kW b.max_discharge_kW
  let power₂ := if power₁ < 0 then 0 else power₁
  let energy_requested_kWh := power₂ * duration_h
  let available_energy_kWh := b.current_soc_kWh
  let actual_energy_delivered_kWh :=
    min energy_requested_kWh (available_energy_kWh * b.round_trip_efficiency)
  let soc' := b.current_soc_kWh - actual_energy_delivered_kWh / b.round_trip_efficiency
  let actual_power_kW := actual_energy_delivered_kWh / duration_h
  (actual_power_kW, { b with current_soc_kWh := soc' })

/-- `Battery.charge` as it runs in Python: the final division
`(actual_energy / duration_h) / eta` raises `ZeroDivisionError` when
`duration_h = 0` or `eta = 0`; otherwise the call returns normally. -/
def Battery.chargeRun (b : Battery) (power_kW : ℚ) (duration_h : ℚ) :
    Except String (ℚ × Battery) :=
  if duration_h = 0 then Except.error "ZeroDivisionError"
  else if b.round_trip_efficiency = 0 then Except.error "ZeroDivisionError"
  else Except.ok (b.charge power_kW duration_h)

/-- `Battery.discharge` as it runs in Python: the divisions by
`eta` and by `duration_h` raise `ZeroDivisionError` when either is zero. -/
def Battery.dischargeRun (b : Battery) (power_kW : ℚ) (duration_h : ℚ) :
    Except String (ℚ × Battery) :=
  if b.round_trip_efficiency = 0 then Except.error "ZeroDivisionError"
  else if duration_h = 0 then Except.error "ZeroDivisionError"
  else Except.ok (b.discharge power_kW duration_h)

/-! ## The LP model built by `optimize`
(`src/backend/src/optimization/optimization.py`, lines 147-260). -/
/-- The decision variables `optimize` creates: per-battery
`Charge_{label}_{t}` / `Discharge_{label}_{t}` / `SOC_{label}_{t}` and the
shared `GridBuy_{t}` / `GridSell_{t}` / `Delta_{t}`.  Since the code labels
batteries by `battery_id`, variables are keyed by that label and `t`. -/
inductive Var where
  | charge (label : String) (t : ℕ)
  | discharge (label : String) (t : ℕ)
  | soc (label : String) (t : ℕ)
  | gridBuy (t : ℕ)
  | gridSell (t : ℕ)
  | delta (t : ℕ)
deriving DecidableEq, Repr

/-- An affine expression over the decision variables, as PuLP accumulates it:
a list of (coefficient, variable) terms plus a constant. -/
structure LinExpr where
  terms : List (ℚ × Var)
  const : ℚ
deriving DecidableEq, Repr

def LinExpr.ofVar (v : Var) : LinExpr := ⟨[(1, v)], 0⟩

def LinExpr.ofConst (q : ℚ) : LinExpr := ⟨[], q⟩

instance : Add LinExpr := ⟨fun e₁ e₂ => ⟨e₁.terms ++ e₂.terms, e₁.const + e₂.const⟩⟩

instance : Neg LinExpr := ⟨fun e => ⟨e.terms.map (fun p => (-p.1, p.2)), -e.const⟩⟩

instance : Sub LinExpr := ⟨fun e₁ e₂ => e₁ + -e₂⟩

instance : HMul ℚ LinExpr LinExpr :=
  ⟨fun q e => ⟨e.terms.map (fun p => (q * p.1, p.2)), q * e.const⟩⟩

def LinExpr.sum (es : List LinExpr) : LinExpr := es.foldr (· + ·) (LinExpr.ofConst 0)

/-- Value of an affine expression under an assignment of the variables. -/
def LinExpr.eval (e : LinExpr) (a : Var → ℚ) : ℚ :=
  (e.terms.map (fun p => p.1 * a p.2)).sum + e.const

/-- A constraint as PuLP receives it from `problem += ...`:
an equality, a `<=` or a `>=` between two affine expressions. -/
inductive Constr where
  | eqC (lhs rhs : LinExpr)
  | leC (lhs rhs : LinExpr)
  | geC (lhs rhs : LinExpr)
deriving DecidableEq, Repr

/-- Satisfaction of a constraint by an assignment. -/
def Constr.sat (c : Constr) (a : Var → ℚ) : Prop :=
  match c with
  | .eqC lhs rhs => lhs.eval a = rhs.eval a
  | .leC lhs rhs => lhs.eval a ≤ rhs.eval a
  | .geC lhs rhs => lhs.eval a ≥ rhs.eval a

instance (c : Constr) (a : Var → ℚ) : Decidable (c.sat a) := by
  rcases c with ⟨lhs, rhs⟩ | ⟨lhs, rhs⟩ | ⟨lhs, rhs⟩ <;>
    simp only [Constr.sat] <;> infer_instance

/-- Declaration of one decision variable: its bounds as passed to
`LpVariable` and whether its category is `LpBinary`. -/
structure BoundSpec where
  var : Var
  lo : Option ℚ
  hi : Option ℚ
  binary : Bool
deriving DecidableEq, Repr

/-- An assignment respects a variable declaration: the bounds hold and a
binary variable takes value 0 or 1. -/
def BoundSpec.sat (bs : BoundSpec) (a : Var → ℚ) : Prop :=
  (∀ l, bs.lo = some l → l ≤ a bs.var) ∧
  (∀ h, bs.hi = some h → a bs.var ≤ h) ∧
  (bs.binary = true → a bs.var = 0 ∨ a bs.var = 1)

instance (bs : BoundSpec) (a : Var → ℚ) : Decidable (bs.sat a) := by
  unfold BoundSpec.sat
  infer_instance

/-- The LP model `optimize` hands to the solver: variable declarations,
constraints, and the objective to minimize. -/
structure Model where
  bounds : List BoundSpec
  constraints : List Constr
  objective : LinExpr

/-- One row of the aligned forecast frame: the `solar`, `wind`, `load`,
`price` columns at one time step. -/
structure FRow where
  solar : ℚ
  wind : ℚ
  load : ℚ
  price : ℚ
deriving DecidableEq, Repr

/-- The aligned forecast frame returned by `load_optimization_data`:
one `FRow` per time step (the horizon is its length). -/
structure Frame where
  rows : List FRow
deriving DecidableEq, Repr

def Frame.T (f : Frame) : ℕ := f.rows.length

def Frame.solarAt (f : Frame) (t : ℕ) : ℚ := (f.rows.getD t ⟨0, 0, 0, 0⟩).solar

def Frame.windAt (f : Frame) (t : ℕ) : ℚ := (f.rows.getD t ⟨0, 0, 0, 0⟩).wind

def Frame.loadAt (f : Frame) (t : ℕ) : ℚ := (f.rows.getD t ⟨0, 0, 0, 0⟩).load

def Frame.priceAt (f : Frame) (t : ℕ) : ℚ := (f.rows.getD t ⟨0, 0, 0, 0⟩).price

/-- `M = 1_000`, the hard-coded big-M constant (line 167). -/
def bigM : ℚ := 1000

/-- `net_excess` at step `t` (lines 227-233):
`solar[t] + wind[t] - load[t] + Σ_b charge[b,t] - Σ_b discharge[b,t]`
(note the sign: battery charging is ADDED to the grid excess in the code). -/
def netExcess (batteries : List Battery) (frame : Frame) (t : ℕ) : LinExpr :=
  LinExpr.ofConst (frame.solarAt t + frame.windAt t - frame.loadAt t)
    + LinExpr.sum (batteries.map (fun bat => LinExpr.ofVar (Var.charge bat.battery_id t)))
    - LinExpr.sum (batteries.map (fun bat => LinExpr.ofVar (Var.discharge bat.battery_id t)))

/-- The model `optimize` builds (lines 147-260), mirroring the code's loops:
grid variables for every step; per battery and step the three bounded
variables; the initial-SOC equality and the SOC recurrence for `t ≥ 1`
(the code loops over all `t` and skips `t = 0`); the eight big-M buy/sell
constraints per step; the objective `Σ_t price[t] * (grid_buy[t] - grid_sell[t])`.
This is the successfully built model; the `KeyError` the building loop raises
at line 195 on an empty horizon is modelled by `buildModelRun`. -/
def buildModel (batteries : List Battery) (frame : Frame) : Model :=
  let T := frame.T
  let gridBounds : List BoundSpec :=
    ((List.range T).map (fun t => ⟨Var.gridBuy t, some 0, none, false⟩))
      ++ ((List.range T).map (fun t => ⟨Var.gridSell t, some 0, none, false⟩))
      ++ ((List.range T).map (fun t => ⟨Var.delta t, some 0, some 1, true⟩))
  let batteryBounds : List BoundSpec :=
    batteries.flatMap (fun bat =>
      (List.range T).flatMap (fun t =>
        [⟨Var.charge bat.battery_id t, some 0, some bat.max_charge_kW, false⟩,
         ⟨Var.discharge bat.battery_id t, some 0, some bat.max_discharge_kW, false⟩,
         ⟨Var.soc bat.battery_id t, some 0, some bat.capacity_kWh, false⟩]))
  let batteryConstraints : List Constr :=
    batteries.flatMap (fun bat =>
      Constr.eqC (LinExpr.ofVar (Var.soc bat.battery_id 0))
          (LinExpr.ofConst bat.current_soc_kWh)
        :: (List.range T).flatMap (fun t =>
          if t = 0 then []
          else
            [Constr.eqC (LinExpr.ofVar (Var.soc bat.battery_id t))
              (LinExpr.ofVar (Var.soc bat.battery_id (t - 1))
                + bat.round_trip_efficiency * LinExpr.ofVar (Var.charge bat.battery_id t)
                - LinExpr.ofVar (Var.discharge bat.battery_id t))]))
  let gridConstraints : List Constr :=
    (List.range T).flatMap (fun t =>
      let ne := netExcess batteries frame t
      [Constr.geC (LinExpr.ofVar (Var.gridSell t)) ne,
       Constr.geC (LinExpr.ofVar (Var.gridSell t)) (LinExpr.ofConst 0),
       Constr.leC (LinExpr.ofVar (Var.gridSell t))
         (ne + bigM * (LinExpr.ofConst 1 - LinExpr.ofVar (Var.delta t))),
       Constr.leC (LinExpr.ofVar (Var.gridSell t)) (bigM * LinExpr.ofVar (Var.delta t)),
       Constr.geC (LinExpr.ofVar (Var.gridBuy t)) (-ne),
       Constr.geC (LinExpr.ofVar (Var.gridBuy t)) (LinExpr.ofConst 0),
       Constr.leC (LinExpr.ofVar (Var.gridBuy t)) (-ne + bigM * LinExpr.ofVar (Var.delta t)),
       Constr.leC (LinExpr.ofVar (Var.gridBuy t))
         (bigM * (LinExpr.ofConst 1 - LinExpr.ofVar (Var.delta t)))])
  let objective : LinExpr :=
    LinExpr.sum ((List.range T).map (fun t =>
      frame.priceAt t * (LinExpr.ofVar (Var.gridBuy t) - LinExpr.ofVar (Var.gridSell t))))
  ⟨gridBounds ++ batteryBounds, batteryConstraints ++ gridConstraints, objective⟩

/-- An assignment is feasible for a model: every constraint is satisfied and
every variable declaration (bounds, binariness) is respected. -/
def Feasible (m : Model) (a : Var → ℚ) : Prop :=
  (∀ c ∈ m.constraints, c.sat a) ∧ (∀ bs ∈ m.bounds, bs.sat a)

instance (m : Model) (a : Var → ℚ) : Decidable (Feasible m a) := by
  unfold Feasible
  infer_instance

/-- An assignment the solver may return with status `Optimal`: feasible and
of minimal objective value among the feasible assignments. -/
def OptimalFor (m : Model) (a : Var → ℚ) : Prop :=
  Feasible m a ∧ ∀ a', Feasible m a' → m.objective.eval a ≤ m.objective.eval a'

/-! ## Result extraction and SOC write-back
(`src/backend/src/optimization/optimization.py`, lines 265-317). -/
/-- One row of `df_results` (lines 286-295) after the `status` and
`total_cost` columns are added (lines 298-299). -/
structure ResultRow where
  time : ℕ
  battery_id : String
  charge : ℚ
  discharge : ℚ
  soc : ℚ
  grid_buy : ℚ
  grid_sell : ℚ
  status : String
  total_cost : ℚ
deriving DecidableEq, Repr

/-- `pulp.value(total_cost)` at an assignment: the objective value
`Σ_t price[t] * (grid_buy[t] - grid_sell[t])` (lines 257-259). -/
def totalCostVal (frame : Frame) (a : Var → ℚ) : ℚ :=
  (((List.range frame.T).map (fun t =>
    frame.priceAt t * (a (Var.gridBuy t) - a (Var.gridSell t))))).sum

/-- The row built at lines 286-295 for one time step and one battery, with
the `status` and `total_cost` columns of lines 298-299 filled in. -/
def resultRow (frame : Frame) (status : String) (a : Var → ℚ) (t : ℕ)
    (bat : Battery) : ResultRow :=
  { time := t
    battery_id := bat.battery_id
    charge := a (Var.charge bat.battery_id t)
    discharge := a (Var.discharge bat.battery_id t)
    soc := a (Var.soc bat.battery_id t)
    grid_buy := a (Var.gridBuy t)
    grid_sell := a (Var.gridSell t)
    status := status
    total_cost := totalCostVal frame a }

/-- The result-collection loops (lines 274-299): the outer loop runs over the
time steps, the inner one over the batteries, so rows are ordered by `t`
first; every row carries the shared `grid_buy[t]`/`grid_sell[t]`, the
solver status string and the objective value. -/
def collectResults (batteries : List Battery) (frame : Frame) (status : String)
    (a : Var → ℚ) : List ResultRow :=
  (List.range frame.T).flatMap (fun t => batteries.map (resultRow frame status a t))

/-- `df_results.loc[df_results["battery_id"] == b_label, "soc"].iloc[-1]`
(line 309): the `soc` column of the rows for the given label, last entry;
`none` models the exception raised when no such rows exist (as happens on an
empty result frame). -/
def finalSoc (rows : List ResultRow) (label : String) : Option ℚ :=
  ((rows.filter (fun r => r.battery_id = label)).map (fun r => r.soc)).getLast?

/-- The write-back loop (lines 306-311): each battery's `current_soc_kWh` is
overwritten with the last `soc` entry among its result rows; a failed lookup
aborts with the raised exception. -/
def updateBatteries (batteries : List Battery) (rows : List ResultRow) :
    Except String (List Battery) :=
  match batteries with
  | [] => Except.ok []
  | bat :: rest =>
    match finalSoc rows bat.battery_id with
    | some s =>
      match updateBatteries rest rows with
      | Except.ok bats => Except.ok ({ bat with current_soc_kWh := s } :: bats)
      | Except.error e => Except.error e
    | none => Except.error "KeyError: no result rows for battery"

/-- The whole post-solve phase of `optimize` (lines 265-317), parameterized
by what the external solver produced: its status string and the variable
values; returns the result rows and the updated battery list, or the raised
exception. -/
def postSolve (batteries : List Battery) (frame : Frame) (status : String)
    (a : Var → ℚ) : Except String (List ResultRow × List Battery) :=
  let rows := collectResults batteries frame status a
  match updateBatteries batteries rows with
  | Except.ok bats => Except.ok (rows, bats)
  | Except.error e => Except.error e

/-- The model-building phase as it runs in Python (lines 147-260): for each
battery, line 195 emits the initial-SOC constraint by indexing
`battery_soc[(b_label, 0)]`.  On a zero-length horizon the variable-creation
loop ran zero times, so with at least one battery that lookup raises
`KeyError` — during model building, before the solver is ever invoked.  With
a non-empty horizon, or with no batteries, every lookup succeeds and the
model of `buildModel` is produced. -/
def buildModelRun (batteries : List Battery) (frame : Frame) :
    Except String Model :=
  match batteries, frame.T with
  | _ :: _, 0 => Except.error "KeyError: (b_label, 0) not in battery_soc"
  | _, _ => Except.ok (buildModel batteries frame)

/-- `optimize` after data loading, with the external solver abstracted
(lines 147-317): build the model — which raises on an empty horizon when a
battery is present — hand it to the solver, then run the result-extraction
and SOC write-back phase on the solver's status and values. -/
def optimizeRun (batteries : List Battery) (frame : Frame)
    (solver : Model → String × (Var → ℚ)) :
    Except String (List ResultRow × List Battery) :=
  match buildModelRun batteries frame with
  | Except.error e => Except.error e
  | Except.ok m => postSolve batteries frame (solver m).1 (solver m).2

/-! ## Index alignment in `load_optimization_data`
(`src/backend/src/optimization/optimization.py`, lines 86-104). -/
/-- A pandas series: a list of (timestamp, value) pairs. -/
def Series : Type := List (ℕ × ℚ)

/-- `df.index = reference_index` (lines 101-103): pandas replaces the index
when the lengths agree and raises `ValueError: Length mismatch` otherwise. -/
def setIndex (s : Series) (idx : List ℕ) : Except String Series :=
  if s.length = idx.length then
    Except.ok (idx.zip (s.map (fun p => p.2)))
  else
    Except.error "ValueError: Length mismatch"

/-- The final alignment step of `load_optimization_data` (lines 86-104):
the solar series' index becomes the reference, the wind, load and market
series each get that index assigned in place, then the four are joined
column-wise.  Differing indices are never compared, only overwritten. -/
def alignFrames (solar wind load market : Series) :
    Except String (List (ℕ × FRow)) :=
  let ref := solar.map (fun p => p.1)
  match setIndex wind ref with
  | Except.error e => Except.error e
  | Except.ok wind' =>
    match setIndex load ref with
    | Except.error e => Except.error e
    | Except.ok load' =>
      match setIndex market ref with
      | Except.error e => Except.error e
      | Except.ok market' =>
        Except.ok ((List.range solar.length).map (fun i =>
          ((solar.getD i (0, 0)).1,
            { solar := (solar.getD i (0, 0)).2
              wind := (wind'.getD i (0, 0)).2
              load := (load'.getD i (0, 0)).2
              price := (market'.getD i (0, 0)).2 })))

/-- A concrete battery used in witnesses. -/
def batW : Battery := ⟨"bw", 10, 5, 2, 2, 19/20⟩

/-- A concrete two-step forecast frame used in witnesses. -/
def frame2 : Frame := ⟨[⟨1, 2, 3, 4⟩, ⟨5, 6, 7, 8⟩]⟩

/-- The Scenario A battery: capacity 10, SOC 5, rate limits 2, eta 0.95. -/
def batA : Battery := ⟨"b1", 10, 5, 2, 2, 19/20⟩

/-- The Scenario A frame: a single step with solar=0, wind=0, load=0, price=50. -/
def frameA : Frame := ⟨[⟨0, 0, 0, 50⟩]⟩

/-- The model `optimize` builds for Scenario A. -/
def modelA : Model := buildModel [batA] frameA

/-- The assignment the code's model actually prefers in Scenario A: charge at
full rate, count the charged power as sellable excess and sell it. -/
def aStar : Var → ℚ := fun v =>
  match v with
  | .charge _ _ => 2
  | .discharge _ _ => 0
  | .soc _ _ => 5
  | .gridBuy _ => 0
  | .gridSell _ => 2
  | .delta _ => 1

/-- The zero-length horizon: a forecast frame with no rows. -/
def frameEmpty : Frame := ⟨[]⟩

/-! ## Theorems -/

example :
    (Battery.init "b" 10 5 2 2 1).current_soc_kWh = 5 := by
  norm_num [Battery.init]

example :
    ((Battery.init "b" 10 5 2 2 1).charge 2 1).2.current_soc_kWh = 7 := by
  norm_num [Battery.init, Battery.charge]

example :
    ((Battery.init "b" 10 5 2 2 1).discharge 3 1).1 = 2 := by
  norm_num [Battery.init, Battery.discharge]

@[simp] theorem LinExpr.eval_ofVar (v : Var) (a : Var → ℚ) :
    (LinExpr.ofVar v).eval a = a v := by
  simp [LinExpr.eval, LinExpr.ofVar]

@[simp] theorem LinExpr.eval_ofConst (q : ℚ) (a : Var → ℚ) :
    (LinExpr.ofConst q).eval a = q := by
  simp [LinExpr.eval, LinExpr.ofConst]

theorem list_sum_map_neg_fn {α : Type} (l : List α) (f : α → ℚ) :
    (l.map (fun x => -(f x))).sum = -((l.map f).sum) := by
  induction l with
  | nil => simp
  | cons x l ih =>
      simp only [List.map_cons, List.sum_cons, ih]
      ring

theorem list_sum_map_mul_fn {α : Type} (l : List α) (q : ℚ) (f : α → ℚ) :
    (l.map (fun x => q * f x)).sum = q * ((l.map f).sum) := by
  induction l with
  | nil => simp
  | cons x l ih =>
      simp only [List.map_cons, List.sum_cons, ih]
      ring

@[simp] theorem LinExpr.eval_add (e₁ e₂ : LinExpr) (a : Var → ℚ) :
    (e₁ + e₂).eval a = e₁.eval a + e₂.eval a := by
  show ((e₁.terms ++ e₂.terms).map (fun p => p.1 * a p.2)).sum + (e₁.const + e₂.const) = _
  rw [List.map_append, List.sum_append]
  unfold LinExpr.eval
  ring

@[simp] theorem LinExpr.eval_neg (e : LinExpr) (a : Var → ℚ) :
    (-e).eval a = -(e.eval a) := by
  show ((e.terms.map (fun p => (-p.1, p.2))).map (fun p => p.1 * a p.2)).sum + (-e.const) = _
  rw [List.map_map]
  have hc : ((fun p : ℚ × Var => p.1 * a p.2) ∘ fun p : ℚ × Var => (-p.1, p.2))
      = fun p : ℚ × Var => -(p.1 * a p.2) := by
    funext p
    simp [Function.comp]
  rw [hc, list_sum_map_neg_fn]
  unfold LinExpr.eval
  ring

@[simp] theorem LinExpr.eval_sub (e₁ e₂ : LinExpr) (a : Var → ℚ) :
    (e₁ - e₂).eval a = e₁.eval a - e₂.eval a := by
  show ((e₁ + -e₂).eval a) = _
  rw [LinExpr.eval_add, LinExpr.eval_neg]
  ring

@[simp] theorem LinExpr.eval_smul (q : ℚ) (e : LinExpr) (a : Var → ℚ) :
    (q * e).eval a = q * e.eval a := by
  show ((e.terms.map (fun p => (q * p.1, p.2))).map (fun p => p.1 * a p.2)).sum + q * e.const = _
  rw [List.map_map]
  have hc : ((fun p : ℚ × Var => p.1 * a p.2) ∘ fun p : ℚ × Var => (q * p.1, p.2))
      = fun p : ℚ × Var => q * (p.1 * a p.2) := by
    funext p
    simp [Function.comp]
    ring
  rw [hc, list_sum_map_mul_fn]
  unfold LinExpr.eval
  ring

@[simp] theorem LinExpr.eval_sum (es : List LinExpr) (a : Var → ℚ) :
    (LinExpr.sum es).eval a = (es.map (fun e => e.eval a)).sum := by
  induction es with
  | nil => simp [LinExpr.sum]
  | cons e es ih =>
      simp only [LinExpr.sum, List.foldr_cons, List.map_cons, List.sum_cons]
      rw [show es.foldr (· + ·) (LinExpr.ofConst 0) = LinExpr.sum es from rfl,
        LinExpr.eval_add, ih]

/-! ## Helper lemmas about `Battery.charge` / `Battery.discharge` -/
theorem charge_soc_eq (b : Battery) (p d : ℚ) :
    (b.charge p d).2.current_soc_kWh =
      b.current_soc_kWh +
        min ((if min p b.max_charge_kW < 0 then 0 else min p b.max_charge_kW)
              * d * b.round_trip_efficiency)
          (b.capacity_kWh - b.current_soc_kWh) := by
  simp [Battery.charge]

theorem charge_power_eq (b : Battery) (p d : ℚ) :
    (b.charge p d).1 =
      min ((if min p b.max_charge_kW < 0 then 0 else min p b.max_charge_kW)
            * d * b.round_trip_efficiency)
          (b.capacity_kWh - b.current_soc_kWh) / d / b.round_trip_efficiency := by
  simp [Battery.charge]

theorem discharge_soc_eq (b : Battery) (p d : ℚ) :
    (b.discharge p d).2.current_soc_kWh =
      b.current_soc_kWh -
        min ((if min p b.max_discharge_kW < 0 then 0 else min p b.max_discharge_kW) * d)
          (b.current_soc_kWh * b.round_trip_efficiency) / b.round_trip_efficiency := by
  simp [Battery.discharge]

theorem clamp_eq_min_max (p mc : ℚ) (hmc : 0 ≤ mc) :
    (if min p mc < 0 then 0 else min p mc) = min (max p 0) mc := by
  rcases le_total p 0 with hp | hp
  · rw [max_eq_right hp, min_eq_left hmc]
    split_ifs with h
    · rfl
    · push_neg at h
      have : min p mc ≤ p := min_le_left _ _
      linarith [le_antisymm (le_trans this hp) h]
  · rw [max_eq_left hp]
    split_ifs with h
    · exfalso
      have hge : (0 : ℚ) ≤ min p mc := le_min hp hmc
      linarith
    · rfl

/-! ## Claims about the battery stepping model -/
/-- Claim C4: for a battery with `0 ≤ soc ≤ capacity`, any requested power
and any `duration_h > 0`, `charge` clamps the request to `[0, max_charge_kW]`,
adds `min(power * duration * eta, capacity - soc)` to the SOC and returns that
added energy divided by the duration and by `eta`; a negative request behaves
as zero (no change, zero returned power). -/
theorem battery_charge_clamps_and_caps (b : Battery) (p d : ℚ)
    (h₀ : 0 ≤ b.current_soc_kWh) (h₁ : b.current_soc_kWh ≤ b.capacity_kWh)
    (hmc : 0 ≤ b.max_charge_kW) (hd : 0 < d) :
    (b.charge p d).2.current_soc_kWh =
      b.current_soc_kWh +
        min (min (max p 0) b.max_charge_kW * d * b.round_trip_efficiency)
          (b.capacity_kWh - b.current_soc_kWh) ∧
    (b.charge p d).1 =
      min (min (max p 0) b.max_charge_kW * d * b.round_trip_efficiency)
          (b.capacity_kWh - b.current_soc_kWh) / d / b.round_trip_efficiency ∧
    (p ≤ 0 → (b.charge p d).1 = 0 ∧ (b.charge p d).2 = b) := by
  have hcl := clamp_eq_min_max p b.max_charge_kW hmc
  refine ⟨?_, ?_, ?_⟩
  · rw [charge_soc_eq, hcl]
  · rw [charge_power_eq, hcl]
  · intro hp
    have hmax : max p 0 = 0 := max_eq_right hp
    have hzero :
        min ((if min p b.max_charge_kW < 0 then 0 else min p b.max_charge_kW)
              * d * b.round_trip_efficiency)
          (b.capacity_kWh - b.current_soc_kWh) = 0 := by
      rw [hcl, hmax, min_eq_left hmc]
      simp only [zero_mul]
      exact min_eq_left (by linarith)
    constructor
    · rw [charge_power_eq, hzero]
      simp
    · have hsoc : (b.charge p d).2.current_soc_kWh = b.current_soc_kWh := by
        rw [charge_soc_eq, hzero, add_zero]
      have hrest : (b.charge p d).2 =
          { b with current_soc_kWh := (b.charge p d).2.current_soc_kWh } := rfl
      rw [hrest, hsoc]

/-- Witness for C4 at a concrete battery and request. -/
theorem battery_charge_clamps_and_caps_witness :
    (0 : ℚ) ≤ 5 ∧ (5 : ℚ) ≤ 10 ∧ (0 : ℚ) ≤ 2 ∧ (0 : ℚ) < 1 ∧
    (((Battery.mk "b1" 10 5 2 2 (19/20)).charge 3 1).2.current_soc_kWh =
      5 + min (min (max 3 0) 2 * 1 * (19/20)) (10 - 5) ∧
    ((Battery.mk "b1" 10 5 2 2 (19/20)).charge 3 1).1 =
      min (min (max 3 0) 2 * 1 * (19/20)) (10 - 5) / 1 / (19/20) ∧
    ((3 : ℚ) ≤ 0 → ((Battery.mk "b1" 10 5 2 2 (19/20)).charge 3 1).1 = 0 ∧
      ((Battery.mk "b1" 10 5 2 2 (19/20)).charge 3 1).2 = Battery.mk "b1" 10 5 2 2 (19/20))) :=
  ⟨by norm_num, by norm_num, by norm_num, by norm_num,
    battery_charge_clamps_and_caps (Battery.mk "b1" 10 5 2 2 (19/20)) 3 1
      (by norm_num) (by norm_num) (by norm_num) (by norm_num)⟩

/-- Claim C10: with `capacity ≥ 0`, `0 < eta ≤ 1` and `duration > 0`,
`0 ≤ soc ≤ capacity` is preserved by `charge` and `discharge` for every
requested power (negative or above the rate limits included), and it is
established by the clamping in the constructor. -/
theorem battery_soc_bounds_invariant (b : Battery) (p d : ℚ)
    (hcap : 0 ≤ b.capacity_kWh) (hη₀ : 0 < b.round_trip_efficiency)
    (hη₁ : b.round_trip_efficiency ≤ 1) (hd : 0 < d)
    (h₀ : 0 ≤ b.current_soc_kWh) (h₁ : b.current_soc_kWh ≤ b.capacity_kWh) :
    (0 ≤ (b.charge p d).2.current_soc_kWh ∧
      (b.charge p d).2.current_soc_kWh ≤ (b.charge p d).2.capacity_kWh) ∧
    (0 ≤ (b.discharge p d).2.current_soc_kWh ∧
      (b.discharge p d).2.current_soc_kWh ≤ (b.discharge p d).2.capacity_kWh) ∧
    (∀ id cap soc mc md η, 0 ≤ cap →
      0 ≤ (Battery.init id cap soc mc md η).current_soc_kWh ∧
      (Battery.init id cap soc mc md η).current_soc_kWh ≤ cap) := by
  have hcapC : (b.charge p d).2.capacity_kWh = b.capacity_kWh := rfl
  have hcapD : (b.discharge p d).2.capacity_kWh = b.capacity_kWh := rfl
  refine ⟨?_, ?_, ?_⟩
  · rw [charge_soc_eq, hcapC]
    have hP : 0 ≤ (if min p b.max_charge_kW < 0 then 0 else min p b.max_charge_kW) := by
      split_ifs with h
      · exact le_refl 0
      · linarith
    have hE : 0 ≤ (if min p b.max_charge_kW < 0 then 0 else min p b.max_charge_kW)
        * d * b.round_trip_efficiency := by
      have := mul_nonneg (mul_nonneg hP hd.le) hη₀.le
      linarith
    constructor
    · have : (0 : ℚ) ≤ min ((if min p b.max_charge_kW < 0 then 0 else min p b.max_charge_kW)
          * d * b.round_trip_efficiency) (b.capacity_kWh - b.current_soc_kWh) :=
        le_min hE (by linarith)
      linarith
    · have := min_le_right ((if min p b.max_charge_kW < 0 then 0 else min p b.max_charge_kW)
          * d * b.round_trip_efficiency) (b.capacity_kWh - b.current_soc_kWh)
      linarith
  · rw [discharge_soc_eq, hcapD]
    have hP : 0 ≤ (if min p b.max_discharge_kW < 0 then 0 else min p b.max_discharge_kW) := by
      split_ifs with h
      · exact le_refl 0
      · linarith
    have hE : 0 ≤ (if min p b.max_discharge_kW < 0 then 0 else min p b.max_discharge_kW) * d :=
      mul_nonneg hP hd.le
    have hm₀ : (0 : ℚ) ≤ min ((if min p b.max_discharge_kW < 0 then 0
        else min p b.max_discharge_kW) * d) (b.current_soc_kWh * b.round_trip_efficiency) :=
      le_min hE (mul_nonneg h₀ hη₀.le)
    have hm₁ := min_le_right ((if min p b.max_discharge_kW < 0 then 0
        else min p b.max_discharge_kW) * d) (b.current_soc_kWh * b.round_trip_efficiency)
    constructor
    · have hdiv : min ((if min p b.max_discharge_kW < 0 then 0
          else min p b.max_discharge_kW) * d) (b.current_soc_kWh * b.round_trip_efficiency)
          / b.round_trip_efficiency ≤ b.current_soc_kWh := by
        rw [div_le_iff₀ hη₀]
        exact hm₁
      linarith
    · have hdiv : (0 : ℚ) ≤ min ((if min p b.max_discharge_kW < 0 then 0
          else min p b.max_discharge_kW) * d) (b.current_soc_kWh * b.round_trip_efficiency)
          / b.round_trip_efficiency := div_nonneg hm₀ hη₀.le
      linarith
  · intro id cap soc mc md η hc
    unfold Battery.init
    simp only
    split_ifs with hs₁ hs₂
    · exact ⟨le_refl 0, hc⟩
    · exact ⟨hc, le_refl cap⟩
    · push_neg at hs₁ hs₂
      exact ⟨hs₁, hs₂⟩

/-- Witness for C10 at a concrete battery, power and duration. -/
theorem battery_soc_bounds_invariant_witness :
    (0 : ℚ) ≤ 10 ∧ (0 : ℚ) < 19/20 ∧ (19/20 : ℚ) ≤ 1 ∧ (0 : ℚ) < 1 ∧
    (0 : ℚ) ≤ 5 ∧ (5 : ℚ) ≤ 10 ∧
    ((0 ≤ ((Battery.mk "b1" 10 5 2 2 (19/20)).charge 100 1).2.current_soc_kWh ∧
      ((Battery.mk "b1" 10 5 2 2 (19/20)).charge 100 1).2.current_soc_kWh ≤
        ((Battery.mk "b1" 10 5 2 2 (19/20)).charge 100 1).2.capacity_kWh) ∧
    (0 ≤ ((Battery.mk "b1" 10 5 2 2 (19/20)).discharge 100 1).2.current_soc_kWh ∧
      ((Battery.mk "b1" 10 5 2 2 (19/20)).discharge 100 1).2.current_soc_kWh ≤
        ((Battery.mk "b1" 10 5 2 2 (19/20)).discharge 100 1).2.capacity_kWh) ∧
    (∀ id cap soc mc md η, (0 : ℚ) ≤ cap →
      0 ≤ (Battery.init id cap soc mc md η).current_soc_kWh ∧
      (Battery.init id cap soc mc md η).current_soc_kWh ≤ cap)) :=
  ⟨by norm_num, by norm_num, by norm_num, by norm_num, by norm_num, by norm_num,
    battery_soc_bounds_invariant (Battery.mk "b1" 10 5 2 2 (19/20)) 100 1
      (by norm_num) (by norm_num) (by norm_num) (by norm_num) (by norm_num) (by norm_num)⟩

/-- Counterexample to claim C9: constructing a battery with a negative
`capacity_kWh` raises nothing — the constructor completes and merely clamps
the initial SOC down to the (negative) capacity — and a `charge` call with
`duration_h = 0` fails with `ZeroDivisionError`, not with `InvalidParameter`.
-/
theorem battery_invalid_parameter_cex :
    (Battery.init "b" (-5) 5 2 2 1).current_soc_kWh = -5 ∧
    (Battery.init "b" (-5) 5 2 2 1).capacity_kWh = -5 ∧
    (Battery.mk "b1" 10 5 2 2 (19/20)).chargeRun 1 0 =
      Except.error "ZeroDivisionError" := by
  refine ⟨?_, ?_, ?_⟩
  · norm_num [Battery.init]
  · norm_num [Battery.init]
  · norm_num [Battery.chargeRun]

/-- Claim C9, amended: the code performs no parameter validation and no
`InvalidParameter` exception exists.  Construction always succeeds — a
negative capacity is accepted, the initial SOC being clamped by the two
written branches — and `charge`/`discharge` raise only `ZeroDivisionError`,
exactly when `duration_h = 0` (or `eta = 0`); any other duration, negative
ones included, returns normally. -/
theorem battery_no_validation_amended (id : String) (cap soc mc md η : ℚ)
    (b : Battery) (p d : ℚ) :
    ((Battery.init id cap soc mc md η).capacity_kWh = cap ∧
      (Battery.init id cap soc mc md η).current_soc_kWh =
        (if soc < 0 then 0 else if soc > cap then cap else soc)) ∧
    b.chargeRun p 0 = Except.error "ZeroDivisionError" ∧
    b.dischargeRun p 0 = Except.error "ZeroDivisionError" ∧
    (d ≠ 0 → b.round_trip_efficiency ≠ 0 →
      b.chargeRun p d = Except.ok (b.charge p d) ∧
      b.dischargeRun p d = Except.ok (b.discharge p d)) := by
  refine ⟨⟨rfl, rfl⟩, ?_, ?_, ?_⟩
  · simp [Battery.chargeRun]
  · by_cases hη : b.round_trip_efficiency = 0 <;> simp [Battery.dischargeRun, hη]
  · intro hdz hηz
    constructor
    · simp [Battery.chargeRun, hdz, hηz]
    · simp [Battery.dischargeRun, hdz, hηz]

/-- Witness for the amended C9, at a concrete battery and a negative
duration. -/
theorem battery_no_validation_amended_witness :
    ((Battery.init "b" (-5) 5 2 2 1).capacity_kWh = -5 ∧
      (Battery.init "b" (-5) 5 2 2 1).current_soc_kWh =
        (if (5 : ℚ) < 0 then 0 else if (5 : ℚ) > -5 then -5 else 5)) ∧
    (Battery.mk "b1" 10 5 2 2 (19/20)).chargeRun 1 0 =
      Except.error "ZeroDivisionError" ∧
    (Battery.mk "b1" 10 5 2 2 (19/20)).dischargeRun 1 0 =
      Except.error "ZeroDivisionError" ∧
    ((-1 : ℚ) ≠ 0 → (Battery.mk "b1" 10 5 2 2 (19/20)).round_trip_efficiency ≠ 0 →
      (Battery.mk "b1" 10 5 2 2 (19/20)).chargeRun 1 (-1) =
        Except.ok ((Battery.mk "b1" 10 5 2 2 (19/20)).charge 1 (-1)) ∧
      (Battery.mk "b1" 10 5 2 2 (19/20)).dischargeRun 1 (-1) =
        Except.ok ((Battery.mk "b1" 10 5 2 2 (19/20)).discharge 1 (-1))) :=
  battery_no_validation_amended "b" (-5) 5 2 2 1 (Battery.mk "b1" 10 5 2 2 (19/20)) 1 (-1)

/-! ## Claims about the LP model builder -/
/-- Claim C1: for every battery in the list and every `t < T`, `optimize`
creates `charge[b,t]` bounded `[0, max_charge_kW]`, `discharge[b,t]` bounded
`[0, max_discharge_kW]` and `soc[b,t]` bounded `[0, capacity]`, and emits the
initial-SOC constraint at `t = 0` and the recurrence
`soc[b,t] = soc[b,t-1] + eta * charge[b,t] - discharge[b,t]` for `t ≥ 1`. -/
theorem optimize_creates_variables_and_soc_constraints
    (batteries : List Battery) (frame : Frame) (bat : Battery)
    (hb : bat ∈ batteries) (t : ℕ) (ht : t < frame.T) :
    (⟨Var.charge bat.battery_id t, some 0, some bat.max_charge_kW, false⟩ : BoundSpec)
        ∈ (buildModel batteries frame).bounds ∧
    (⟨Var.discharge bat.battery_id t, some 0, some bat.max_discharge_kW, false⟩ : BoundSpec)
        ∈ (buildModel batteries frame).bounds ∧
    (⟨Var.soc bat.battery_id t, some 0, some bat.capacity_kWh, false⟩ : BoundSpec)
        ∈ (buildModel batteries frame).bounds ∧
    Constr.eqC (LinExpr.ofVar (Var.soc bat.battery_id 0))
        (LinExpr.ofConst bat.current_soc_kWh) ∈ (buildModel batteries frame).constraints ∧
    (1 ≤ t →
      Constr.eqC (LinExpr.ofVar (Var.soc bat.battery_id t))
        (LinExpr.ofVar (Var.soc bat.battery_id (t - 1))
          + bat.round_trip_efficiency * LinExpr.ofVar (Var.charge bat.battery_id t)
          - LinExpr.ofVar (Var.discharge bat.battery_id t))
        ∈ (buildModel batteries frame).constraints) := by
  have hT := List.mem_range.mpr ht
  refine ⟨?_, ?_, ?_, ?_, ?_⟩
  · simp only [buildModel]
    refine List.mem_append_right _ ?_
    refine List.mem_flatMap.mpr ⟨bat, hb, ?_⟩
    refine List.mem_flatMap.mpr ⟨t, hT, ?_⟩
    simp
  · simp only [buildModel]
    refine List.mem_append_right _ ?_
    refine List.mem_flatMap.mpr ⟨bat, hb, ?_⟩
    refine List.mem_flatMap.mpr ⟨t, hT, ?_⟩
    simp
  · simp only [buildModel]
    refine List.mem_append_right _ ?_
    refine List.mem_flatMap.mpr ⟨bat, hb, ?_⟩
    refine List.mem_flatMap.mpr ⟨t, hT, ?_⟩
    simp
  · simp only [buildModel]
    refine List.mem_append_left _ ?_
    refine List.mem_flatMap.mpr ⟨bat, hb, ?_⟩
    exact List.mem_cons_self _ _
  · intro h1
    simp only [buildModel]
    refine List.mem_append_left _ ?_
    refine List.mem_flatMap.mpr ⟨bat, hb, ?_⟩
    refine List.mem_cons_of_mem _ ?_
    refine List.mem_flatMap.mpr ⟨t, hT, ?_⟩
    have hne : ¬(t = 0) := by omega
    simp [hne]

/-- Witness for C1 at a concrete battery, frame and `t = 1`. -/
theorem optimize_creates_variables_witness :
    batW ∈ [batW] ∧ 1 < frame2.T ∧
    ((⟨Var.charge batW.battery_id 1, some 0, some batW.max_charge_kW, false⟩ : BoundSpec)
        ∈ (buildModel [batW] frame2).bounds ∧
    (⟨Var.discharge batW.battery_id 1, some 0, some batW.max_discharge_kW, false⟩ : BoundSpec)
        ∈ (buildModel [batW] frame2).bounds ∧
    (⟨Var.soc batW.battery_id 1, some 0, some batW.capacity_kWh, false⟩ : BoundSpec)
        ∈ (buildModel [batW] frame2).bounds ∧
    Constr.eqC (LinExpr.ofVar (Var.soc batW.battery_id 0))
        (LinExpr.ofConst batW.current_soc_kWh) ∈ (buildModel [batW] frame2).constraints ∧
    (1 ≤ 1 →
      Constr.eqC (LinExpr.ofVar (Var.soc batW.battery_id 1))
        (LinExpr.ofVar (Var.soc batW.battery_id (1 - 1))
          + batW.round_trip_efficiency * LinExpr.ofVar (Var.charge batW.battery_id 1)
          - LinExpr.ofVar (Var.discharge batW.battery_id 1))
        ∈ (buildModel [batW] frame2).constraints)) :=
  ⟨List.mem_singleton.mpr rfl, by simp [frame2, Frame.T],
    optimize_creates_variables_and_soc_constraints [batW] frame2 batW
      (List.mem_singleton.mpr rfl) 1 (by simp [frame2, Frame.T])⟩

/-- The two disjunction constraints `grid_sell[t] <= M*delta[t]` and
`grid_buy[t] <= M*(1 - delta[t])` are among the emitted constraints. -/
theorem grid_bigM_constraints_mem (batteries : List Battery) (frame : Frame)
    (t : ℕ) (ht : t < frame.T) :
    Constr.leC (LinExpr.ofVar (Var.gridSell t))
        (bigM * LinExpr.ofVar (Var.delta t)) ∈ (buildModel batteries frame).constraints ∧
    Constr.leC (LinExpr.ofVar (Var.gridBuy t))
        (bigM * (LinExpr.ofConst 1 - LinExpr.ofVar (Var.delta t)))
        ∈ (buildModel batteries frame).constraints := by
  have hT := List.mem_range.mpr ht
  constructor
  · simp only [buildModel]
    refine List.mem_append_right _ ?_
    refine List.mem_flatMap.mpr ⟨t, hT, ?_⟩
    simp
  · simp only [buildModel]
    refine List.mem_append_right _ ?_
    refine List.mem_flatMap.mpr ⟨t, hT, ?_⟩
    simp

/-- The grid variables' declarations are among the emitted bounds. -/
theorem grid_bounds_mem (batteries : List Battery) (frame : Frame)
    (t : ℕ) (ht : t < frame.T) :
    (⟨Var.gridBuy t, some 0, none, false⟩ : BoundSpec) ∈ (buildModel batteries frame).bounds ∧
    (⟨Var.gridSell t, some 0, none, false⟩ : BoundSpec) ∈ (buildModel batteries frame).bounds ∧
    (⟨Var.delta t, some 0, some 1, true⟩ : BoundSpec) ∈ (buildModel batteries frame).bounds := by
  have hT := List.mem_range.mpr ht
  refine ⟨?_, ?_, ?_⟩
  · simp only [buildModel]
    refine List.mem_append_left _ ?_
    refine List.mem_append_left _ ?_
    refine List.mem_append_left _ ?_
    exact List.mem_map.mpr ⟨t, hT, rfl⟩
  · simp only [buildModel]
    refine List.mem_append_left _ ?_
    refine List.mem_append_left _ ?_
    refine List.mem_append_right _ ?_
    exact List.mem_map.mpr ⟨t, hT, rfl⟩
  · simp only [buildModel]
    refine List.mem_append_left _ ?_
    refine List.mem_append_right _ ?_
    exact List.mem_map.mpr ⟨t, hT, rfl⟩

/-- Claim C2: in every feasible assignment of the built model — hence in any
solution returned with status Optimal — `grid_buy[t] * grid_sell[t] = 0` at
every time step: the big-M constraints with the binary `delta[t]` make buying
and selling mutually exclusive. -/
theorem grid_buy_sell_mutually_exclusive (batteries : List Battery) (frame : Frame)
    (a : Var → ℚ) (t : ℕ) (ht : t < frame.T)
    (hfeas : Feasible (buildModel batteries frame) a) :
    a (Var.gridBuy t) * a (Var.gridSell t) = 0 := by
  obtain ⟨hcon, hbnd⟩ := hfeas
  obtain ⟨hmsell, hmbuy⟩ := grid_bigM_constraints_mem batteries frame t ht
  obtain ⟨hbb, hbs, hbd⟩ := grid_bounds_mem batteries frame t ht
  have hsell := hcon _ hmsell
  have hbuy := hcon _ hmbuy
  simp only [Constr.sat, LinExpr.eval_smul, LinExpr.eval_sub, LinExpr.eval_ofConst,
    LinExpr.eval_ofVar] at hsell hbuy
  obtain ⟨hbuy_lo, -, -⟩ := hbnd _ hbb
  obtain ⟨hsell_lo, -, -⟩ := hbnd _ hbs
  obtain ⟨-, -, hbin⟩ := hbnd _ hbd
  have hbuy0 : (0 : ℚ) ≤ a (Var.gridBuy t) := hbuy_lo 0 rfl
  have hsell0 : (0 : ℚ) ≤ a (Var.gridSell t) := hsell_lo 0 rfl
  rcases hbin rfl with hδ | hδ
  · have hz : a (Var.gridSell t) = 0 := by
      rw [hδ] at hsell
      simp only [mul_zero] at hsell
      linarith
    rw [hz, mul_zero]
  · have hz : a (Var.gridBuy t) = 0 := by
      rw [hδ] at hbuy
      norm_num at hbuy
      linarith
    rw [hz, zero_mul]

theorem aStar_feasible : Feasible modelA aStar := by
  constructor
  · intro c hc
    simp only [modelA, buildModel, frameA, Frame.T, List.length_cons, List.length_nil,
      List.range_succ, List.range_zero, List.flatMap_cons, List.flatMap_nil,
      List.append_nil, List.nil_append, List.cons_append, reduceIte,
      List.map_cons, List.map_nil, List.mem_cons, List.not_mem_nil, or_false] at hc
    rcases hc with rfl | rfl | rfl | rfl | rfl | rfl | rfl | rfl | rfl <;>
      simp [Constr.sat, netExcess, frameA, Frame.solarAt, Frame.windAt, Frame.loadAt,
        Frame.priceAt, LinExpr.sum, aStar, batA, bigM] <;>
      norm_num
  · intro bs hbs
    simp only [modelA, buildModel, frameA, Frame.T, List.length_cons, List.length_nil,
      List.range_succ, List.range_zero, List.flatMap_cons, List.flatMap_nil,
      List.append_nil, List.nil_append, List.cons_append, List.map_cons, List.map_nil,
      List.mem_cons, List.not_mem_nil, or_false] at hbs
    rcases hbs with rfl | rfl | rfl | rfl | rfl | rfl <;>
      simp [BoundSpec.sat, aStar, batA] <;>
      norm_num

/-- The per-battery variable declarations are among the emitted bounds. -/
theorem battery_bounds_mem (batteries : List Battery) (frame : Frame) (bat : Battery)
    (hb : bat ∈ batteries) (t : ℕ) (ht : t < frame.T) :
    (⟨Var.charge bat.battery_id t, some 0, some bat.max_charge_kW, false⟩ : BoundSpec)
        ∈ (buildModel batteries frame).bounds ∧
    (⟨Var.discharge bat.battery_id t, some 0, some bat.max_discharge_kW, false⟩ : BoundSpec)
        ∈ (buildModel batteries frame).bounds ∧
    (⟨Var.soc bat.battery_id t, some 0, some bat.capacity_kWh, false⟩ : BoundSpec)
        ∈ (buildModel batteries frame).bounds := by
  have hT := List.mem_range.mpr ht
  refine ⟨?_, ?_, ?_⟩ <;>
    · simp only [buildModel]
      refine List.mem_append_right _ ?_
      refine List.mem_flatMap.mpr ⟨bat, hb, ?_⟩
      refine List.mem_flatMap.mpr ⟨t, hT, ?_⟩
      simp

/-- The constraint `grid_sell[t] <= net_excess + M*(1 - delta[t])` is among
the emitted constraints. -/
theorem grid_sell_upper_mem (batteries : List Battery) (frame : Frame)
    (t : ℕ) (ht : t < frame.T) :
    Constr.leC (LinExpr.ofVar (Var.gridSell t))
        (netExcess batteries frame t
          + bigM * (LinExpr.ofConst 1 - LinExpr.ofVar (Var.delta t)))
        ∈ (buildModel batteries frame).constraints := by
  have hT := List.mem_range.mpr ht
  simp only [buildModel]
  refine List.mem_append_right _ ?_
  refine List.mem_flatMap.mpr ⟨t, hT, ?_⟩
  simp

/-- Evaluating the symbolic `net_excess` expression. -/
theorem netExcess_eval (batteries : List Battery) (frame : Frame) (t : ℕ) (a : Var → ℚ) :
    (netExcess batteries frame t).eval a =
      frame.solarAt t + frame.windAt t - frame.loadAt t
        + (batteries.map (fun bat => a (Var.charge bat.battery_id t))).sum
        - (batteries.map (fun bat => a (Var.discharge bat.battery_id t))).sum := by
  simp [netExcess, List.map_map, Function.comp_def]

/-- `pulp.value(total_cost)` agrees with the model objective's value. -/
theorem totalCostVal_eq_obj (batteries : List Battery) (frame : Frame) (a : Var → ℚ) :
    totalCostVal frame a = ((buildModel batteries frame).objective).eval a := by
  simp [totalCostVal, buildModel, List.map_map, Function.comp_def]

/-- Every collected result row carries `pulp.value(total_cost)` in its
`total_cost` column. -/
theorem collectResults_total_cost (batteries : List Battery) (frame : Frame)
    (status : String) (a : Var → ℚ) (r : ResultRow)
    (hr : r ∈ collectResults batteries frame status a) :
    r.total_cost = totalCostVal frame a := by
  simp only [collectResults, List.mem_flatMap, List.mem_map, List.mem_range] at hr
  obtain ⟨t, -, bat, -, rfl⟩ := hr
  rfl

/-- The Scenario A objective is `50 * (grid_buy[0] - grid_sell[0])`. -/
theorem modelA_obj_eval (a : Var → ℚ) :
    modelA.objective.eval a = 50 * (a (Var.gridBuy 0) - a (Var.gridSell 0)) := by
  simp [modelA, buildModel, frameA, Frame.T, Frame.priceAt, List.range_succ,
    List.range_zero, LinExpr.sum]

/-- No feasible assignment of the Scenario A model has objective value below
-100: the sell volume is capped by `net_excess ≤ max_charge = 2` when
`delta = 1` and by `M*delta = 0` when `delta = 0`. -/
theorem modelA_lower_bound (a : Var → ℚ) (h : Feasible modelA a) :
    -100 ≤ modelA.objective.eval a := by
  obtain ⟨hcon, hbnd⟩ := h
  have ht : (0 : ℕ) < frameA.T := by simp [frameA, Frame.T]
  have hb : batA ∈ [batA] := List.mem_singleton.mpr rfl
  obtain ⟨hmsell, -⟩ := grid_bigM_constraints_mem [batA] frameA 0 ht
  obtain ⟨hbb, hbs, hbd⟩ := grid_bounds_mem [batA] frameA 0 ht
  obtain ⟨hbc, hbdis, -⟩ := battery_bounds_mem [batA] frameA batA hb 0 ht
  have hsellM := hcon _ hmsell
  have hsellU := hcon _ (grid_sell_upper_mem [batA] frameA 0 ht)
  simp only [Constr.sat, LinExpr.eval_smul, LinExpr.eval_sub, LinExpr.eval_add,
    LinExpr.eval_ofConst, LinExpr.eval_ofVar, netExcess_eval] at hsellM hsellU
  obtain ⟨-, hc_hi, -⟩ := hbnd _ hbc
  have hcub : a (Var.charge batA.battery_id 0) ≤ batA.max_charge_kW :=
    hc_hi batA.max_charge_kW rfl
  obtain ⟨hd_lo, -, -⟩ := hbnd _ hbdis
  have hdlb : (0 : ℚ) ≤ a (Var.discharge batA.battery_id 0) := hd_lo 0 rfl
  obtain ⟨hbuy_lo, -, -⟩ := hbnd _ hbb
  have hbuy0 : (0 : ℚ) ≤ a (Var.gridBuy 0) := hbuy_lo 0 rfl
  obtain ⟨hsell_lo, -, -⟩ := hbnd _ hbs
  have hsell0 : (0 : ℚ) ≤ a (Var.gridSell 0) := hsell_lo 0 rfl
  obtain ⟨-, -, hbin⟩ := hbnd _ hbd
  rw [modelA_obj_eval]
  simp only [frameA, Frame.solarAt, Frame.windAt, Frame.loadAt, batA, bigM,
    List.map_cons, List.map_nil, List.sum_cons, List.sum_nil,
    List.getD_cons_zero] at hsellM hsellU hcub hdlb
  rcases hbin rfl with hδ | hδ <;> rw [hδ] at hsellM hsellU <;>
    norm_num at hsellM hsellU <;> linarith

/-- Witness for C2 at the concrete Scenario A model and a concrete feasible
assignment. -/
theorem grid_buy_sell_mutually_exclusive_witness :
    0 < frameA.T ∧ Feasible (buildModel [batA] frameA) aStar ∧
    aStar (Var.gridBuy 0) * aStar (Var.gridSell 0) = 0 :=
  ⟨by simp [frameA, Frame.T], aStar_feasible,
    grid_buy_sell_mutually_exclusive [batA] frameA aStar 0
      (by simp [frameA, Frame.T]) aStar_feasible⟩

/-- Claim C3 is violated by the code: because `net_excess` ADDS battery
charging to the sellable excess (`optimization.py` lines 227-233), the
Scenario A model's optimum is not the all-zero dispatch with cost 0; the
assignment that charges at full rate and sells the charged power is feasible
with objective -100, it is optimal, and every optimal assignment — hence any
solution returned with status Optimal — has objective value -100, which is
also the `total_cost` written into every returned row. -/
theorem scenarioA_optimum_is_minus_100 :
    Feasible modelA aStar ∧
    aStar (Var.charge "b1" 0) = 2 ∧ aStar (Var.gridSell 0) = 2 ∧
    modelA.objective.eval aStar = -100 ∧
    OptimalFor modelA aStar ∧
    (∀ a, OptimalFor modelA a →
      modelA.objective.eval a = -100 ∧
      ∀ r ∈ collectResults [batA] frameA "Optimal" a, r.total_cost = -100) := by
  have hobjStar : modelA.objective.eval aStar = -100 := by
    rw [modelA_obj_eval]
    norm_num [aStar]
  refine ⟨aStar_feasible, rfl, rfl, hobjStar, ⟨aStar_feasible, ?_⟩, ?_⟩
  · intro a' ha'
    rw [hobjStar]
    exact modelA_lower_bound a' ha'
  · intro a hopt
    have hle : modelA.objective.eval a ≤ -100 := by
      have := hopt.2 aStar aStar_feasible
      rw [hobjStar] at this
      exact this
    have hge := modelA_lower_bound a hopt.1
    have heq : modelA.objective.eval a = -100 := le_antisymm hle hge
    refine ⟨heq, ?_⟩
    intro r hr
    rw [collectResults_total_cost [batA] frameA "Optimal" a r hr,
      totalCostVal_eq_obj [batA] frameA a]
    exact heq

/-! ## Claims about result extraction and the SOC write-back -/
/-- Every collected result row carries the solver status string. -/
theorem collectResults_status (batteries : List Battery) (frame : Frame)
    (status : String) (a : Var → ℚ) (r : ResultRow)
    (hr : r ∈ collectResults batteries frame status a) : r.status = status := by
  simp only [collectResults, List.mem_flatMap, List.mem_map, List.mem_range] at hr
  obtain ⟨t, -, bat, -, rfl⟩ := hr
  rfl

/-- The `soc` column of one time step's rows, restricted to one label, is a
constant block of `a (soc label t)` values, one per battery with that label. -/
theorem block_filter_map_soc (batteries : List Battery) (frame : Frame)
    (status : String) (a : Var → ℚ) (label : String) (t : ℕ) :
    ((batteries.map (resultRow frame status a t)).filter
        (fun r => r.battery_id = label)).map (fun r => r.soc)
      = List.replicate (batteries.countP (fun bat => bat.battery_id = label))
          (a (Var.soc label t)) := by
  induction batteries with
  | nil => rfl
  | cons bat bs ih =>
      simp only [List.map_cons, List.filter_cons, List.countP_cons]
      by_cases h : bat.battery_id = label
      · simp [resultRow, h, List.replicate_succ, ih]
      · simp [resultRow, h, ih]

/-- The `.iloc[-1]` lookup of line 309 lands on the final time step: for any
label carried by some battery and a non-empty horizon, the last `soc` entry
among that label's rows is the value at `t = T - 1`. -/
theorem finalSoc_collectResults (batteries : List Battery) (frame : Frame)
    (status : String) (a : Var → ℚ) (label : String)
    (hmem : ∃ bat ∈ batteries, bat.battery_id = label) (hT : 1 ≤ frame.T) :
    finalSoc (collectResults batteries frame status a) label
      = some (a (Var.soc label (frame.T - 1))) := by
  unfold finalSoc collectResults
  rw [List.filter_flatMap, List.map_flatMap]
  have hrw : ∀ t : ℕ, (((batteries.map (resultRow frame status a t)).filter
      (fun r => r.battery_id = label)).map (fun r => r.soc))
      = List.replicate (batteries.countP (fun bat => bat.battery_id = label))
          (a (Var.soc label t)) :=
    fun t => block_filter_map_soc batteries frame status a label t
  simp only [Function.comp_def, hrw]
  obtain ⟨T', hT'⟩ : ∃ T', frame.T = T' + 1 := ⟨frame.T - 1, by omega⟩
  rw [hT', List.range_succ, List.flatMap_append, List.getLast?_append]
  simp only [List.flatMap_cons, List.flatMap_nil, List.append_nil,
    List.getLast?_replicate]
  have hk : batteries.countP (fun bat => bat.battery_id = label) ≠ 0 := by
    obtain ⟨bat, hb, hid⟩ := hmem
    have hpos : 0 < batteries.countP (fun bat => bat.battery_id = label) :=
      List.countP_pos_iff.mpr ⟨bat, hb, by simpa using hid⟩
    omega
  simp [hk]

/-- The write-back loop succeeds and rewrites exactly the SOC field when every
battery's lookup succeeds. -/
theorem updateBatteries_ok (batteries : List Battery) (rows : List ResultRow)
    (f : String → ℚ)
    (h : ∀ bat ∈ batteries, finalSoc rows bat.battery_id = some (f bat.battery_id)) :
    updateBatteries batteries rows =
      Except.ok (batteries.map (fun bat =>
        { bat with current_soc_kWh := f bat.battery_id })) := by
  induction batteries with
  | nil => rfl
  | cons bat rest ih =>
      simp only [updateBatteries, h bat (List.mem_cons_self bat rest),
        ih (fun b hb => h b (List.mem_cons_of_mem bat hb)), List.map_cons]

/-- On a non-empty horizon, the whole post-solve phase returns the collected
rows together with the battery list in which each battery's SOC — and nothing
else — has been replaced by its value at the final time step. -/
theorem postSolve_ok (batteries : List Battery) (frame : Frame) (status : String)
    (a : Var → ℚ) (hT : 1 ≤ frame.T) :
    postSolve batteries frame status a =
      Except.ok (collectResults batteries frame status a,
        batteries.map (fun bat =>
          { bat with current_soc_kWh := a (Var.soc bat.battery_id (frame.T - 1)) })) := by
  have h := updateBatteries_ok batteries (collectResults batteries frame status a)
    (fun label => a (Var.soc label (frame.T - 1)))
    (fun bat hb =>
      finalSoc_collectResults batteries frame status a bat.battery_id ⟨bat, hb, rfl⟩ hT)
  simp only [postSolve, h]

/-- Claim C5: after `optimize` returns (on a non-empty horizon), each input
battery's `current_soc_kWh` equals its `soc` value at the final time step
`T - 1`, and this write-back is the only change: `battery_id`,
`capacity_kWh`, `max_charge_kW`, `max_discharge_kW` and
`round_trip_efficiency` are untouched. -/
theorem optimize_writes_back_final_soc_only (batteries : List Battery)
    (frame : Frame) (status : String) (a : Var → ℚ) (hT : 1 ≤ frame.T) :
    postSolve batteries frame status a =
      Except.ok (collectResults batteries frame status a,
        batteries.map (fun bat =>
          { bat with current_soc_kWh := a (Var.soc bat.battery_id (frame.T - 1)) })) ∧
    ∀ bat ∈ batteries,
      ({ bat with current_soc_kWh := a (Var.soc bat.battery_id (frame.T - 1)) }
          : Battery).battery_id = bat.battery_id ∧
      ({ bat with current_soc_kWh := a (Var.soc bat.battery_id (frame.T - 1)) }
          : Battery).capacity_kWh = bat.capacity_kWh ∧
      ({ bat with current_soc_kWh := a (Var.soc bat.battery_id (frame.T - 1)) }
          : Battery).max_charge_kW = bat.max_charge_kW ∧
      ({ bat with current_soc_kWh := a (Var.soc bat.battery_id (frame.T - 1)) }
          : Battery).max_discharge_kW = bat.max_discharge_kW ∧
      ({ bat with current_soc_kWh := a (Var.soc bat.battery_id (frame.T - 1)) }
          : Battery).round_trip_efficiency = bat.round_trip_efficiency :=
  ⟨postSolve_ok batteries frame status a hT,
    fun _ _ => ⟨rfl, rfl, rfl, rfl, rfl⟩⟩

/-- Witness for C5 at the concrete Scenario A data. -/
theorem optimize_writes_back_final_soc_only_witness :
    1 ≤ frameA.T ∧
    postSolve [batA] frameA "Optimal" aStar =
      Except.ok (collectResults [batA] frameA "Optimal" aStar,
        [batA].map (fun bat =>
          { bat with current_soc_kWh := aStar (Var.soc bat.battery_id (frameA.T - 1)) })) :=
  ⟨by simp [frameA, Frame.T],
    (optimize_writes_back_final_soc_only [batA] frameA "Optimal" aStar
      (by simp [frameA, Frame.T])).1⟩

/-- Counterexample to claim C6: a non-Optimal solver status does not abort
`optimize`. With status "Infeasible" on the Scenario A data and whatever
(meaningless) values the solved variables carry, the post-solve phase still
returns a full result row — carrying "Infeasible" in its status column — and
still overwrites the battery's SOC (here 5 → 0): no `OptimizationFailed`
condition exists in the code. -/
theorem non_optimal_still_returns_cex :
    postSolve [batA] frameA "Infeasible" (fun _ => 0) =
      Except.ok ([⟨0, "b1", 0, 0, 0, 0, 0, "Infeasible", 0⟩],
        [⟨"b1", 10, 0, 2, 2, 19/20⟩]) ∧
    batA.current_soc_kWh = 5 := by
  constructor
  · simp [postSolve, updateBatteries, collectResults, resultRow, finalSoc,
      frameA, Frame.T, batA, List.range_succ, List.range_zero, totalCostVal]
  · norm_num [batA]

/-- Claim C6, amended: when the solver reports a status other than Optimal,
`optimize` raises nothing and returns the full result table, each row
carrying the raw status string in its `status` column, and it still
overwrites each battery's SOC with the extracted final-step value. -/
theorem non_optimal_returns_full_result (batteries : List Battery) (frame : Frame)
    (status : String) (a : Var → ℚ) (hT : 1 ≤ frame.T)
    (hstatus : status ≠ "Optimal") :
    postSolve batteries frame status a =
      Except.ok (collectResults batteries frame status a,
        batteries.map (fun bat =>
          { bat with current_soc_kWh := a (Var.soc bat.battery_id (frame.T - 1)) })) ∧
    ∀ r ∈ collectResults batteries frame status a, r.status = status :=
  ⟨postSolve_ok batteries frame status a hT,
    fun r hr => collectResults_status batteries frame status a r hr⟩

/-- Witness for the amended C6 at the concrete Scenario A data. -/
theorem non_optimal_returns_full_result_witness :
    1 ≤ frameA.T ∧ "Undefined" ≠ "Optimal" ∧
    (postSolve [batA] frameA "Undefined" aStar =
      Except.ok (collectResults [batA] frameA "Undefined" aStar,
        [batA].map (fun bat =>
          { bat with current_soc_kWh := aStar (Var.soc bat.battery_id (frameA.T - 1)) })) ∧
    ∀ r ∈ collectResults [batA] frameA "Undefined" aStar, r.status = "Undefined") :=
  ⟨by simp [frameA, Frame.T], by decide,
    non_optimal_returns_full_result [batA] frameA "Undefined" aStar
      (by simp [frameA, Frame.T]) (by decide)⟩

/-- Counterexample to claim C8: on a zero-length horizon with a battery,
`optimize` raises instead of returning an empty "no data" solution: the
initial-SOC constraint at line 195 indexes `battery_soc[(b_label, 0)]` in the
empty variable dict, and the `KeyError` aborts the call during model
building, before the solver ever runs. -/
theorem empty_horizon_build_raises_cex :
    buildModelRun [batA] frameEmpty =
      Except.error "KeyError: (b_label, 0) not in battery_soc" ∧
    optimizeRun [batA] frameEmpty (fun _ => ("Optimal", fun _ => 0)) =
      Except.error "KeyError: (b_label, 0) not in battery_soc" := ⟨rfl, rfl⟩

/-- Claim C8, amended: the code has no empty-horizon branch and no "no data"
status.  With at least one battery, a zero-length horizon raises a `KeyError`
at line 195 — the initial-SOC constraint indexes `battery_soc[(b_label, 0)]`
in the empty variable dict — during model building, before the solver is
invoked, whatever the solver would answer; only with an empty battery list
does the call return, and then the result is the empty row list (with the
solver's status, not "no data", as the status of its zero rows). -/
theorem empty_horizon_build_amended (bat : Battery) (rest : List Battery)
    (solver : Model → String × (Var → ℚ)) :
    optimizeRun (bat :: rest) frameEmpty solver =
      Except.error "KeyError: (b_label, 0) not in battery_soc" ∧
    optimizeRun [] frameEmpty solver = Except.ok ([], []) :=
  ⟨rfl, rfl⟩

/-- Witness for the amended C8 at a concrete battery list and solver. -/
theorem empty_horizon_build_amended_witness :
    optimizeRun [batA] frameEmpty (fun _ => ("Optimal", fun _ => 1)) =
      Except.error "KeyError: (b_label, 0) not in battery_soc" ∧
    optimizeRun [] frameEmpty (fun _ => ("Optimal", fun _ => 1)) =
      Except.ok ([], []) :=
  empty_horizon_build_amended batA [] (fun _ => ("Optimal", fun _ => 1))

/-! ## Claims about input-data alignment -/
theorem range_map_getD {α : Type} (l : List α) (d : α) :
    (List.range l.length).map (fun i => l.getD i d) = l := by
  induction l with
  | nil => rfl
  | cons x xs ih =>
      rw [List.length_cons, List.range_succ_eq_map, List.map_cons]
      simp only [List.getD_cons_zero, List.map_map]
      have hc : ((fun i => (x :: xs).getD i d) ∘ Nat.succ) = fun i => xs.getD i d := by
        funext i
        simp
      rw [hc, ih]

/-- Counterexample to claim C7: four equal-length series whose indices
disagree (solar is stamped 0, the others 1) are not rejected — no
`InputDataMisalignment` is raised; the wind/load/market indices are silently
overwritten with the solar index and the joined frame is returned. -/
theorem misaligned_index_coerced_cex :
    alignFrames [(0, 1)] [(1, 2)] [(1, 3)] [(1, 4)] =
      Except.ok [(0, ⟨1, 2, 3, 4⟩)] := rfl

/-- For any series, reading positions `0..len-1` back through `getD` and
projecting the index reproduces the index column. -/
theorem range_map_getD_fst (solar : Series) :
    (List.range solar.length).map (fun i => (solar.getD i (0, 0)).1)
      = solar.map Prod.fst := by
  conv_rhs => rw [← range_map_getD solar (0, 0)]
  rw [List.map_map]
  rfl

/-- Claim C7, amended: no `InputDataMisalignment` exception exists.  Series
of differing length make the pandas index assignment raise a `ValueError`
(before any decision variable is created), while series of equal length with
differing indices are silently reindexed onto the solar series index. -/
theorem alignment_amended (solar wind load market : Series) :
    (wind.length ≠ solar.length →
      alignFrames solar wind load market = Except.error "ValueError: Length mismatch") ∧
    (wind.length = solar.length → load.length = solar.length →
      market.length = solar.length →
      (alignFrames solar wind load market).map (fun rows => rows.map Prod.fst)
        = Except.ok (solar.map Prod.fst)) := by
  constructor
  · intro hne
    simp [alignFrames, setIndex, List.length_map, hne]
  · intro hw hl hm
    simp only [alignFrames, setIndex, List.length_map, hw, hl, hm, reduceIte]
    simp only [Except.map, List.map_map]
    congr 1
    exact range_map_getD_fst solar

/-- Witness for the amended C7 at concrete series. -/
theorem alignment_amended_witness :
    (([(1, 2), (2, 3)] : Series).length ≠ ([(0, 1)] : Series).length ∧
      alignFrames [(0, 1)] [(1, 2), (2, 3)] [(1, 3)] [(1, 4)] =
        Except.error "ValueError: Length mismatch") :=
  ⟨by decide,
    (alignment_amended [(0, 1)] [(1, 2), (2, 3)] [(1, 3)] [(1, 4)]).1 (by decide)⟩

/-- Witness for C3: the optimality characterization applied at the concrete
optimal assignment. -/
theorem scenarioA_optimum_is_minus_100_witness :
    OptimalFor modelA aStar ∧ modelA.objective.eval aStar = -100 :=
  ⟨scenarioA_optimum_is_minus_100.2.2.2.2.1,
    (scenarioA_optimum_is_minus_100.2.2.2.2.2 aStar
      scenarioA_optimum_is_minus_100.2.2.2.2.1).1⟩
